import Mathlib

/-!
Shallow embedding of the deplock compatibility-validation and
distribution-selection engine (src/deplock/parser/poetry.py,
src/deplock/configs/poetry_lock.py), together with proofs of the
stated properties of the Validator, Filter and Selector stages.
-/

namespace Deplock

/-- Python str.endswith, embedded as a character-list suffix test. -/
def strEndsWith (s suf : String) : Bool :=
  suf.data.isSuffixOf s.data

/-- Python str.startswith, embedded as a character-list test. -/
def strStartsWith (s pre : String) : Bool :=
  pre.data.isPrefixOf s.data

/-- Decimal parse of a character list (none when empty or non-digit). -/
def digitsToNat (cs : List Char) : Option Nat :=
  if cs = [] then none
  else cs.foldl (fun acc c =>
    match acc with
    | none => none
    | some n => if c.isDigit then some (10 * n + (c.toNat - 48)) else none) (some 0)

/-- The major component of a dotted version string: the characters before
the first dot, parsed as a natural number (none when they do not parse). -/
def majorComponent (v : String) : Option Nat :=
  digitsToNat (v.data.takeWhile (fun c => c ≠ '.'))

/-- Embeds PoetryFile (src/deplock/configs/poetry_lock.py): one candidate
distribution, a filename plus its content hash. -/
structure PoetryFile where
  file : String
  hash : String
deriving DecidableEq

/-- Embeds PoetrySource (src/deplock/configs/poetry_lock.py). -/
structure PoetrySource where
  type : Option String := none
  url : Option String := none
  reference : Option String := none
deriving DecidableEq

/-- Embeds PoetryDependency (src/deplock/configs/poetry_lock.py). -/
structure PoetryDependency where
  name : String
  constraint : Option String := none
  optional : Bool := false
  python_versions : Option String := none
  marker : Option String := none
deriving DecidableEq

/-- Embeds PoetryPackage (src/deplock/configs/poetry_lock.py). -/
structure PoetryPackage where
  name : String
  version : String
  category : String := "main"
  optional : Bool := false
  python_versions : Option String := none
  files : List PoetryFile := []
  source : Option PoetrySource := none
  dependencies : List PoetryDependency := []
deriving DecidableEq

/-- Embeds PoetryLockMetadata (src/deplock/configs/poetry_lock.py). -/
structure PoetryLockMetadata where
  lock_version : String
  python_versions : Option String := none
  content_hash : Option String := none
deriving DecidableEq

/-- Embeds PoetryLockConfig (src/deplock/configs/poetry_lock.py). -/
structure PoetryLockConfig where
  metadata : PoetryLockMetadata
  packages : List PoetryPackage
deriving DecidableEq

/-- Modelled from the spec: the Environment descriptor
(deplock.types.environment.PythonEnvironment is not under src/).  It carries
the target interpreter version and the ordered Tag Compatibility Table; the
table, composed with the external Wheel.get_minimum_supported_index lookup of
the poetry library, is represented by the induced function matchIndex sending
a wheel filename to the minimal index of the tag-table entry matched by the
tag triple embedded in the filename (none when no entry matches). -/
structure PythonEnvironment where
  python_version : String
  matchIndex : String → Option Nat

/-- Modelled from the spec: the ResolvedRequirement output record
(deplock.types.requirement.PythonRequirement is not under src/): package
name, version, chosen distribution fingerprint and optional index URL, the
four values src/deplock/parser/poetry.py passes to its constructor. -/
structure PythonRequirement where
  name : String
  version : String
  fingerprint : String
  index_url : Option String := none
deriving DecidableEq

/-- The exception classes raised by src/deplock/parser/poetry.py
(deplock.exceptions).  pyAttributeError stands for the Python built-in
AttributeError that line 246 would raise when supported_tags() is accessed
on a missing environment. -/
inductive DeplockError where
  | MissingPythonEnvironmentError
  | MissingLockMetadataError
  | IncompatibleDistributionError (msg : String)
  | InvalidLockVersionError
  | InvalidLockFileError (msg : String)
  | pyAttributeError
deriving DecidableEq

/-- The mutable fields of a PoetryLock object that the Validator, Filter and
Selector read or write (src/deplock/parser/poetry.py, lines 55 to 59).  The
path-search fields (base_path, end_dir, poetry_lock_path), which only locate
the lock file on disk, are not part of this core. -/
structure LockState where
  data : PoetryLockConfig
  python_target_env_spec : Option PythonEnvironment := none
  poetry_lock_is_validated : Bool := false
  valid_package_list : Option (List PoetryPackage) := none
  package_requirements : Option (List PythonRequirement) := none

/-- The valid_py_version computation of PoetryLock.validate_poetry_lock
(src/deplock/parser/poetry.py, lines 176 to 182).  The parameter admits
stands for deplock.utils.markers.validate_python_version
(specifier, current_version), which is not under src/ and is called
opaquely.  Python truthiness of the optional metadata python_versions
string is embedded explicitly: None and the empty string both count as
absent (the parser at line 110 stores a missing metadata python-versions
entry as the empty string). -/
def lock_python_valid (admits : String → String → Bool) (python_version : String)
    (metadata : PoetryLockMetadata) : Bool :=
  match metadata.python_versions with
  | none => true
  | some spec => if spec = "" then true else admits spec python_version

/-- Embeds PoetryLock.validate_poetry_lock (src/deplock/parser/poetry.py,
lines 158 to 187): environment check, schema prefix check, then the
interpreter compatibility check of lock_python_valid. -/
def validate_poetry_lock (admits : String → String → Bool) (s : LockState) :
    LockState × Except DeplockError Unit :=
  match s.python_target_env_spec with
  | none => (s, .error .MissingPythonEnvironmentError)
  | some env =>
    if strStartsWith s.data.metadata.lock_version "2." = false then
      (s, .error .InvalidLockVersionError)
    else if lock_python_valid admits env.python_version s.data.metadata = false then
      (s, .error (.InvalidLockFileError
        "Poetry lock file not compatible with target Python version"))
    else
      ({ s with poetry_lock_is_validated := true }, .ok ())

/-- The per-package interpreter check of PoetryLock.get_valid_packages_from_lock
(src/deplock/parser/poetry.py, lines 203 to 210), with Python truthiness of
the optional python_versions string made explicit. -/
def package_python_valid (admits : String → String → Bool) (python_version : String)
    (package : PoetryPackage) : Bool :=
  match package.python_versions with
  | none => true
  | some spec => if spec = "" then true else admits spec python_version

/-- Embeds PoetryLock.get_valid_packages_from_lock (src/deplock/parser/poetry.py,
lines 189 to 221): the append loop over self.data.packages, keeping the
packages whose interpreter constraint admits the target version. -/
def get_valid_packages_from_lock (admits : String → String → Bool) (s : LockState) :
    LockState × Except DeplockError (List PoetryPackage) :=
  match s.python_target_env_spec with
  | none => (s, .error .MissingPythonEnvironmentError)
  | some env =>
    let valid_package_list := s.data.packages.foldl
      (fun acc package =>
        if package_python_valid admits env.python_version package then acc ++ [package]
        else acc) []
    ({ s with valid_package_list := some valid_package_list }, .ok valid_package_list)

/-- One iteration of the distribution loop of
PoetryLock.get_preferred_distributions (src/deplock/parser/poetry.py, lines
266 to 283), acting on the accumulator (best_dist, min_tag_index). -/
def distStep (matchIndex : String → Option Nat) (is_platform_specific : Bool)
    (acc : Option PoetryFile × Option Nat) (dist : PoetryFile) :
    Option PoetryFile × Option Nat :=
  if strEndsWith dist.file ".whl" = true then
    match matchIndex dist.file with
    | some matched_index =>
      match acc.2 with
      | none => (some dist, some matched_index)
      | some min_tag_index =>
        if matched_index < min_tag_index then (some dist, some matched_index) else acc
    | none => acc
  else if is_platform_specific = false ∧ strEndsWith dist.file ".tar.gz" = true ∧ acc.1 = none then
    (some dist, acc.2)
  else acc

/-- The whole distribution loop of PoetryLock.get_preferred_distributions for
one package (src/deplock/parser/poetry.py, lines 249 to 283): computes
is_platform_specific from the binary distributions, then folds distStep over
the file list from the initial accumulator (None, None). -/
def bestDistribution (matchIndex : String → Option Nat) (files : List PoetryFile) :
    Option PoetryFile × Option Nat :=
  let binary_distributions := files.filter (fun d => strEndsWith d.file ".whl")
  let is_platform_specific :=
    binary_distributions.any (fun d => !(strEndsWith d.file "none-any.whl"))
  files.foldl (distStep matchIndex is_platform_specific) (none, none)

/-- The message of the IncompatibleDistributionError raised at
src/deplock/parser/poetry.py, lines 286 to 290. -/
def incompatibleMessage (name version : String) : String :=
  "Could not find a distribution for " ++ name ++ "==" ++ version ++
    " that is compatible with target environment."

/-- The source URL extraction of src/deplock/parser/poetry.py, lines 298 to
300, with Python truthiness of the optional url string made explicit. -/
def sourceUrl (package : PoetryPackage) : Option String :=
  match package.source with
  | some src =>
    match src.url with
    | some u => if u = "" then none else some u
    | none => none
  | none => none

/-- The per-package body of PoetryLock.get_preferred_distributions
(src/deplock/parser/poetry.py, lines 249 to 309): select the best
distribution for one package, or raise IncompatibleDistributionError. -/
def select_distribution (env : PythonEnvironment) (package : PoetryPackage) :
    Except DeplockError PythonRequirement :=
  match (bestDistribution env.matchIndex package.files).1 with
  | none =>
    .error (.IncompatibleDistributionError (incompatibleMessage package.name package.version))
  | some best_dist =>
    .ok { name := package.name, version := package.version,
          fingerprint := best_dist.hash, index_url := sourceUrl package }

/-- The package loop of PoetryLock.get_preferred_distributions
(src/deplock/parser/poetry.py, lines 248 to 309): appends each resolved
requirement to the accumulator; the first failing package stops the loop with
its error, the accumulator holding the requirements recorded so far (the
state self.package_requirements keeps after the raise). -/
def requirementsLoop (env : PythonEnvironment) :
    List PoetryPackage → List PythonRequirement →
    List PythonRequirement × Option DeplockError
  | [], acc => (acc, none)
  | package :: rest, acc =>
    match select_distribution env package with
    | .error e => (acc, some e)
    | .ok r => requirementsLoop env rest (acc ++ [r])

/-- Embeds PoetryLock.get_preferred_distributions (src/deplock/parser/poetry.py,
lines 223 to 311).  A falsy valid_package_list (None, or the empty list)
raises MissingLockMetadataError; then self.package_requirements is reset to
the empty list and the environment is read (pyAttributeError when absent)
before the package loop runs. -/
def get_preferred_distributions (s : LockState) :
    LockState × Except DeplockError (List PythonRequirement) :=
  match s.valid_package_list with
  | none => (s, .error .MissingLockMetadataError)
  | some [] => (s, .error .MissingLockMetadataError)
  | some packages =>
    match s.python_target_env_spec with
    | none => ({ s with package_requirements := some [] }, .error .pyAttributeError)
    | some env =>
      match requirementsLoop env packages [] with
      | (reqs, some e) => ({ s with package_requirements := some reqs }, .error e)
      | (reqs, none) => ({ s with package_requirements := some reqs }, .ok reqs)

/-- The Validator, Filter, Selector stages run in sequence on one PoetryLock
object, each stage on the state the previous stage left behind, stopping at
the first raised error (the pipeline of the spec, section 2). -/
def runPipeline (admits : String → String → Bool) (s : LockState) :
    LockState × Except DeplockError (List PythonRequirement) :=
  match validate_poetry_lock admits s with
  | (s1, .error e) => (s1, .error e)
  | (s1, .ok _) =>
    match get_valid_packages_from_lock admits s1 with
    | (s2, .error e) => (s2, .error e)
    | (s2, .ok _) => get_preferred_distributions s2

/-- A filename cannot end in ".whl" and in ".tar.gz" at the same time. -/
theorem whl_tar_disjoint (s : String) (h1 : strEndsWith s ".whl" = true)
    (h2 : strEndsWith s ".tar.gz" = true) : False := by
  unfold strEndsWith at h1 h2
  rw [List.isSuffixOf_iff_suffix] at h1 h2
  obtain ⟨a, ha⟩ := h1
  obtain ⟨b, hb⟩ := h2
  have hga : s.data.getLast? = some 'l' := by
    rw [← ha, List.getLast?_append_of_ne_nil]
    · rfl
    · decide
  have hgb : s.data.getLast? = some 'z' := by
    rw [← hb, List.getLast?_append_of_ne_nil]
    · rfl
    · decide
  rw [hga] at hgb
  simp at hgb

/-- Once a matched wheel occupies the accumulator, the rest of the
distribution loop performs a strict-minimum scan over the matched wheels:
the final accumulator holds the first distribution achieving the minimum
matched index (the initial occupant winning ties). -/
theorem foldMin (mi : String → Option Nat) (ps : Bool) (fs : List PoetryFile) :
    ∀ (d : PoetryFile) (m : Nat),
      ∃ d2 m2,
        fs.foldl (distStep mi ps) (some d, some m) = (some d2, some m2) ∧
        m2 ≤ m ∧
        (∀ x ∈ fs, strEndsWith x.file ".whl" = true → ∀ i, mi x.file = some i → m2 ≤ i) ∧
        ((d2 = d ∧ m2 = m) ∨
          ∃ a x b, fs = a ++ x :: b ∧ d2 = x ∧ strEndsWith x.file ".whl" = true ∧
            mi x.file = some m2 ∧ m2 < m ∧
            (∀ w ∈ a, strEndsWith w.file ".whl" = true → ∀ i, mi w.file = some i → m2 < i)) := by
  induction fs with
  | nil =>
    intro d m
    exact ⟨d, m, rfl, Nat.le_refl m, by simp, Or.inl ⟨rfl, rfl⟩⟩
  | cons y fs ih =>
    intro d m
    rw [List.foldl_cons]
    by_cases hw : strEndsWith y.file ".whl" = true
    · cases hmi : mi y.file with
      | none =>
        have hstep : distStep mi ps (some d, some m) y = (some d, some m) := by
          simp [distStep, hw, hmi]
        rw [hstep]
        obtain ⟨d2, m2, h1, h2, h3, h4⟩ := ih d m
        refine ⟨d2, m2, h1, h2, ?_, ?_⟩
        · intro x hx hxw i hxi
          rcases List.mem_cons.mp hx with rfl | hx
          · rw [hmi] at hxi; exact absurd hxi (by simp)
          · exact h3 x hx hxw i hxi
        · rcases h4 with h4 | ⟨a, x, b, hfs, hd2, hxw, hxi, hlt, hstrict⟩
          · exact Or.inl h4
          · refine Or.inr ⟨y :: a, x, b, by simp [hfs], hd2, hxw, hxi, hlt, ?_⟩
            intro w hwmem hww i hwi
            rcases List.mem_cons.mp hwmem with rfl | hwmem
            · rw [hmi] at hwi; exact absurd hwi (by simp)
            · exact hstrict w hwmem hww i hwi
      | some j =>
        by_cases hj : j < m
        · have hstep : distStep mi ps (some d, some m) y = (some y, some j) := by
            simp [distStep, hw, hmi, hj]
          rw [hstep]
          obtain ⟨d2, m2, h1, h2, h3, h4⟩ := ih y j
          refine ⟨d2, m2, h1, Nat.le_trans h2 (Nat.le_of_lt hj), ?_, ?_⟩
          · intro x hx hxw i hxi
            rcases List.mem_cons.mp hx with rfl | hx
            · rw [hmi] at hxi
              cases hxi
              exact h2
            · exact h3 x hx hxw i hxi
          · rcases h4 with ⟨hd2, hm2⟩ | ⟨a, x, b, hfs, hd2, hxw2, hxi, hlt, hstrict⟩
            · refine Or.inr ⟨[], y, fs, rfl, hd2, hw, ?_, ?_, by simp⟩
              · rw [hm2]; exact hmi
              · rw [hm2]; exact hj
            · refine Or.inr ⟨y :: a, x, b, by simp [hfs], hd2, hxw2, hxi,
                Nat.lt_trans hlt hj, ?_⟩
              intro w hwmem hww i hwi
              rcases List.mem_cons.mp hwmem with rfl | hwmem
              · rw [hmi] at hwi
                cases hwi
                exact hlt
              · exact hstrict w hwmem hww i hwi
        · have hstep : distStep mi ps (some d, some m) y = (some d, some m) := by
            simp [distStep, hw, hmi, hj]
          rw [hstep]
          obtain ⟨d2, m2, h1, h2, h3, h4⟩ := ih d m
          refine ⟨d2, m2, h1, h2, ?_, ?_⟩
          · intro x hx hxw i hxi
            rcases List.mem_cons.mp hx with rfl | hx
            · rw [hmi] at hxi
              cases hxi
              exact Nat.le_trans h2 (Nat.le_of_not_lt hj)
            · exact h3 x hx hxw i hxi
          · rcases h4 with h4 | ⟨a, x, b, hfs, hd2, hxw2, hxi, hlt, hstrict⟩
            · exact Or.inl h4
            · refine Or.inr ⟨y :: a, x, b, by simp [hfs], hd2, hxw2, hxi, hlt, ?_⟩
              intro w hwmem hww i hwi
              rcases List.mem_cons.mp hwmem with rfl | hwmem
              · rw [hmi] at hwi
                cases hwi
                exact Nat.lt_of_lt_of_le hlt (Nat.le_of_not_lt hj)
              · exact hstrict w hwmem hww i hwi
    · have hstep : distStep mi ps (some d, some m) y = (some d, some m) := by
        simp [distStep, hw]
      rw [hstep]
      obtain ⟨d2, m2, h1, h2, h3, h4⟩ := ih d m
      refine ⟨d2, m2, h1, h2, ?_, ?_⟩
      · intro x hx hxw i hxi
        rcases List.mem_cons.mp hx with rfl | hx
        · exact absurd hxw hw
        · exact h3 x hx hxw i hxi
      · rcases h4 with h4 | ⟨a, x, b, hfs, hd2, hxw2, hxi, hlt, hstrict⟩
        · exact Or.inl h4
        · refine Or.inr ⟨y :: a, x, b, by simp [hfs], hd2, hxw2, hxi, hlt, ?_⟩
          intro w hwmem hww i hwi
          rcases List.mem_cons.mp hwmem with rfl | hwmem
          · exact absurd hww hw
          · exact hstrict w hwmem hww i hwi

/-- Until the first matched wheel is reached, the accumulator keeps the shape
(b, None); at the first matched wheel the accumulator becomes that wheel and
its matched index, whatever came before. -/
theorem reachWheel (mi : String → Option Nat) (ps : Bool) (fs : List PoetryFile) :
    ∀ b : Option PoetryFile,
      (∃ x ∈ fs, strEndsWith x.file ".whl" = true ∧ (mi x.file).isSome = true) →
      ∃ p x q i, fs = p ++ x :: q ∧ strEndsWith x.file ".whl" = true ∧ mi x.file = some i ∧
        (∀ w ∈ p, strEndsWith w.file ".whl" = true → mi w.file = none) ∧
        fs.foldl (distStep mi ps) (b, none) = q.foldl (distStep mi ps) (some x, some i) := by
  induction fs with
  | nil => intro b h; simp at h
  | cons y fs ih =>
    intro b h
    rw [List.foldl_cons]
    by_cases hw : strEndsWith y.file ".whl" = true
    · cases hmi : mi y.file with
      | some i =>
        have hstep : distStep mi ps (b, none) y = (some y, some i) := by
          simp [distStep, hw, hmi]
        rw [hstep]
        exact ⟨[], y, fs, i, rfl, hw, hmi, by simp, rfl⟩
      | none =>
        have hstep : distStep mi ps (b, none) y = (b, none) := by
          simp [distStep, hw, hmi]
        rw [hstep]
        have hex : ∃ x ∈ fs, strEndsWith x.file ".whl" = true ∧ (mi x.file).isSome = true := by
          obtain ⟨x, hx, hxw, hxs⟩ := h
          rcases List.mem_cons.mp hx with rfl | hx
          · rw [hmi] at hxs; simp at hxs
          · exact ⟨x, hx, hxw, hxs⟩
        obtain ⟨p, x, q, i, hfs, hxw, hxi, hclean, hfold⟩ := ih b hex
        refine ⟨y :: p, x, q, i, by simp [hfs], hxw, hxi, ?_, hfold⟩
        intro w hwm hww
        rcases List.mem_cons.mp hwm with rfl | hwm
        · exact hmi
        · exact hclean w hwm hww
    · have hshape : ∃ b2 : Option PoetryFile, distStep mi ps (b, none) y = (b2, none) := by
        unfold distStep
        rw [if_neg hw]
        by_cases hc : ps = false ∧ strEndsWith y.file ".tar.gz" = true ∧
            (Prod.mk b (none : Option Nat)).1 = none
        · rw [if_pos hc]; exact ⟨some y, rfl⟩
        · rw [if_neg hc]; exact ⟨b, rfl⟩
      obtain ⟨b2, hstep⟩ := hshape
      rw [hstep]
      have hex : ∃ x ∈ fs, strEndsWith x.file ".whl" = true ∧ (mi x.file).isSome = true := by
        obtain ⟨x, hx, hxw, hxs⟩ := h
        rcases List.mem_cons.mp hx with rfl | hx
        · exact absurd hxw hw
        · exact ⟨x, hx, hxw, hxs⟩
      obtain ⟨p, x, q, i, hfs, hxw, hxi, hclean, hfold⟩ := ih b2 hex
      refine ⟨y :: p, x, q, i, by simp [hfs], hxw, hxi, ?_, hfold⟩
      intro w hwm hww
      rcases List.mem_cons.mp hwm with rfl | hwm
      · exact absurd hww hw
      · exact hclean w hwm hww

/-- When no wheel in the remaining files matches, an accumulator already
holding a source distribution never changes again. -/
theorem foldKeep (mi : String → Option Nat) (ps : Bool) (t : PoetryFile) :
    ∀ fs : List PoetryFile,
      (∀ x ∈ fs, strEndsWith x.file ".whl" = true → mi x.file = none) →
      fs.foldl (distStep mi ps) (some t, none) = (some t, none) := by
  intro fs
  induction fs with
  | nil => intro _; rfl
  | cons y fs ih =>
    intro hnm
    rw [List.foldl_cons]
    have hstep : distStep mi ps (some t, none) y = (some t, none) := by
      by_cases hw : strEndsWith y.file ".whl" = true
      · simp [distStep, hw, hnm y (List.mem_cons_self y fs) hw]
      · simp [distStep, hw]
    rw [hstep]
    exact ih fun x hx hxw => hnm x (List.mem_cons_of_mem y hx) hxw

/-- With a platform-specific wheel present and no wheel matching, the loop
never leaves the empty accumulator. -/
theorem foldNone_ps (mi : String → Option Nat) :
    ∀ fs : List PoetryFile,
      (∀ x ∈ fs, strEndsWith x.file ".whl" = true → mi x.file = none) →
      fs.foldl (distStep mi true) (none, none) = (none, none) := by
  intro fs
  induction fs with
  | nil => intro _; rfl
  | cons y fs ih =>
    intro hnm
    rw [List.foldl_cons]
    have hstep : distStep mi true (none, none) y = (none, none) := by
      by_cases hw : strEndsWith y.file ".whl" = true
      · simp [distStep, hw, hnm y (List.mem_cons_self y fs) hw]
      · simp [distStep, hw]
    rw [hstep]
    exact ih fun x hx hxw => hnm x (List.mem_cons_of_mem y hx) hxw

/-- With no source distribution and no wheel matching, the loop never leaves
the empty accumulator. -/
theorem foldNone_noTar (mi : String → Option Nat) (ps : Bool) :
    ∀ fs : List PoetryFile,
      (∀ x ∈ fs, strEndsWith x.file ".whl" = true → mi x.file = none) →
      (∀ x ∈ fs, strEndsWith x.file ".tar.gz" = false) →
      fs.foldl (distStep mi ps) (none, none) = (none, none) := by
  intro fs
  induction fs with
  | nil => intro _ _; rfl
  | cons y fs ih =>
    intro hnm hnt
    rw [List.foldl_cons]
    have hstep : distStep mi ps (none, none) y = (none, none) := by
      by_cases hw : strEndsWith y.file ".whl" = true
      · simp [distStep, hw, hnm y (List.mem_cons_self y fs) hw]
      · simp [distStep, hw, hnt y (List.mem_cons_self y fs)]
    rw [hstep]
    exact ih (fun x hx hxw => hnm x (List.mem_cons_of_mem y hx) hxw)
      (fun x hx => hnt x (List.mem_cons_of_mem y hx))

/-- With no platform-specific wheel and no matching wheel, the loop settles
on the first source distribution of the file list. -/
theorem foldFirstTar (mi : String → Option Nat) :
    ∀ fs : List PoetryFile,
      (∀ x ∈ fs, strEndsWith x.file ".whl" = true → mi x.file = none) →
      (∃ t ∈ fs, strEndsWith t.file ".tar.gz" = true) →
      ∃ l1 t l2, fs = l1 ++ t :: l2 ∧ strEndsWith t.file ".tar.gz" = true ∧
        (∀ u ∈ l1, strEndsWith u.file ".tar.gz" = false) ∧
        fs.foldl (distStep mi false) (none, none) = (some t, none) := by
  intro fs
  induction fs with
  | nil => intro _ h; simp at h
  | cons y fs ih =>
    intro hnm hex
    rw [List.foldl_cons]
    by_cases ht : strEndsWith y.file ".tar.gz" = true
    · have hw : ¬ strEndsWith y.file ".whl" = true := fun hc => whl_tar_disjoint y.file hc ht
      have hstep : distStep mi false (none, none) y = (some y, none) := by
        simp [distStep, hw, ht]
      rw [hstep]
      rw [foldKeep mi false y fs (fun x hx hxw => hnm x (List.mem_cons_of_mem y hx) hxw)]
      exact ⟨[], y, fs, rfl, ht, by simp, rfl⟩
    · have hstep : distStep mi false (none, none) y = (none, none) := by
        by_cases hw : strEndsWith y.file ".whl" = true
        · simp [distStep, hw, hnm y (List.mem_cons_self y fs) hw]
        · simp [distStep, hw, ht]
      rw [hstep]
      have hex2 : ∃ t ∈ fs, strEndsWith t.file ".tar.gz" = true := by
        obtain ⟨t, htm, htt⟩ := hex
        rcases List.mem_cons.mp htm with rfl | htm
        · exact absurd htt ht
        · exact ⟨t, htm, htt⟩
      obtain ⟨l1, t, l2, hfs, htt, hcl, hfold⟩ :=
        ih (fun x hx hxw => hnm x (List.mem_cons_of_mem y hx) hxw) hex2
      refine ⟨y :: l1, t, l2, by simp [hfs], htt, ?_, hfold⟩
      intro u hu
      rcases List.mem_cons.mp hu with rfl | hu
      · simpa using ht
      · exact hcl u hu

/-- Unfolding of bestDistribution into its fold, with the computed
is_platform_specific flag made explicit. -/
theorem bestDistribution_eq (mi : String → Option Nat) (files : List PoetryFile) :
    bestDistribution mi files =
      files.foldl
        (distStep mi ((files.filter (fun d => strEndsWith d.file ".whl")).any
          (fun d => !(strEndsWith d.file "none-any.whl")))) (none, none) := rfl

/-- A platform-specific wheel used in the concrete instances below. -/
def wheelPlat : PoetryFile := { file := "pkg-1.0-cp311-cp311-linux_x86_64.whl", hash := "sha256:aaa" }

/-- A universal (none-any) wheel used in the concrete instances below. -/
def wheelUniv : PoetryFile := { file := "pkg-1.0-py3-none-any.whl", hash := "sha256:bbb" }

/-- A universal source distribution used in the concrete instances below. -/
def sdist : PoetryFile := { file := "pkg-1.0.tar.gz", hash := "sha256:ccc" }

/-- A concrete environment whose tag table matches the platform wheel at
index 5 and the universal wheel at index 2. -/
def envTags : PythonEnvironment :=
  { python_version := "3.11",
    matchIndex := fun f =>
      if f = "pkg-1.0-cp311-cp311-linux_x86_64.whl" then some 5
      else if f = "pkg-1.0-py3-none-any.whl" then some 2 else none }

/-- A concrete environment whose tag table matches no wheel at all. -/
def envNone : PythonEnvironment := { python_version := "3.11", matchIndex := fun _ => none }

/-- A package carrying both wheels and the source distribution. -/
def pkgBoth : PoetryPackage :=
  { name := "pkg", version := "1.0", files := [wheelPlat, wheelUniv, sdist] }

/-- A package carrying only the universal wheel and the source distribution. -/
def pkgUnivOnly : PoetryPackage :=
  { name := "pkg", version := "1.0", files := [wheelUniv, sdist] }

/-- A package carrying only the platform-specific wheel. -/
def pkgPlatOnly : PoetryPackage :=
  { name := "legacy-pkg", version := "0.1.0", files := [wheelPlat] }

/-- C1: for every package with at least one binary (.whl) distribution whose
tag triple matches an entry of the environment's ordered tag compatibility
table, the Selector chooses the binary distribution whose matched index in
the table is minimal over the package's distribution list, skipping binary
distributions that match no entry; among several achieving the minimum, the
first in file-list order is chosen (every earlier matching wheel has a
strictly larger index). -/
theorem C1_minimal_tag_index_selection (env : PythonEnvironment) (package : PoetryPackage)
    (d0 : PoetryFile) (hmem : d0 ∈ package.files)
    (hwhl : strEndsWith d0.file ".whl" = true)
    (hmatch : (env.matchIndex d0.file).isSome = true) :
    ∃ l1 d l2 m,
      package.files = l1 ++ d :: l2 ∧
      strEndsWith d.file ".whl" = true ∧
      env.matchIndex d.file = some m ∧
      (∀ d2 ∈ package.files, strEndsWith d2.file ".whl" = true →
        ∀ i, env.matchIndex d2.file = some i → m ≤ i) ∧
      (∀ d2 ∈ l1, strEndsWith d2.file ".whl" = true →
        ∀ i, env.matchIndex d2.file = some i → m < i) ∧
      select_distribution env package =
        .ok { name := package.name, version := package.version,
              fingerprint := d.hash, index_url := sourceUrl package } := by
  obtain ⟨p, x, q, i, hfs, hxw, hxi, hclean, hfold⟩ :=
    reachWheel env.matchIndex
      ((package.files.filter (fun d => strEndsWith d.file ".whl")).any
        (fun d => !(strEndsWith d.file "none-any.whl")))
      package.files none ⟨d0, hmem, hwhl, hmatch⟩
  obtain ⟨d2, m2, hq, hle, hminq, hdisj⟩ :=
    foldMin env.matchIndex
      ((package.files.filter (fun d => strEndsWith d.file ".whl")).any
        (fun d => !(strEndsWith d.file "none-any.whl"))) q x i
  have hbest : bestDistribution env.matchIndex package.files = (some d2, some m2) := by
    rw [bestDistribution_eq, hfold, hq]
  have hsel : select_distribution env package =
      .ok { name := package.name, version := package.version,
            fingerprint := d2.hash, index_url := sourceUrl package } := by
    unfold select_distribution
    rw [hbest]
  rcases hdisj with ⟨hd2, hm2⟩ | ⟨a, y, b, hq2, hd2, hyw, hyi, hlt, hstrict⟩
  · refine ⟨p, x, q, i, hfs, hxw, hxi, ?_, ?_, ?_⟩
    · intro w hwm hww j hwj
      rw [hfs] at hwm
      rcases List.mem_append.mp hwm with hwm | hwm
      · rw [hclean w hwm hww] at hwj; exact absurd hwj (by simp)
      · rcases List.mem_cons.mp hwm with rfl | hwm
        · rw [hxi] at hwj; cases hwj; exact Nat.le_refl i
        · have := hminq w hwm hww j hwj
          rw [hm2] at this
          exact this
    · intro w hwm hww j hwj
      rw [hclean w hwm hww] at hwj
      exact absurd hwj (by simp)
    · rw [hsel, hd2]
  · refine ⟨p ++ x :: a, y, b, m2, ?_, hyw, hyi, ?_, ?_, ?_⟩
    · rw [hfs, hq2]; simp
    · intro w hwm hww j hwj
      rw [hfs] at hwm
      rcases List.mem_append.mp hwm with hwm | hwm
      · rw [hclean w hwm hww] at hwj; exact absurd hwj (by simp)
      · rcases List.mem_cons.mp hwm with rfl | hwm
        · rw [hxi] at hwj; cases hwj; exact Nat.le_of_lt hlt
        · exact hminq w hwm hww j hwj
    · intro w hwm hww j hwj
      rcases List.mem_append.mp hwm with hwm | hwm
      · rw [hclean w hwm hww] at hwj; exact absurd hwj (by simp)
      · rcases List.mem_cons.mp hwm with rfl | hwm
        · rw [hxi] at hwj; cases hwj; exact hlt
        · exact hstrict w hwm hww j hwj
    · rw [hsel, hd2]

/-- Witness for C1 at a concrete input: a package with a platform wheel at
table index 5, a universal wheel at index 2 and a source archive; the
universal wheel (minimal index 2) is chosen. -/
theorem C1_minimal_tag_index_selection_witness :
    ∃ l1 d l2 m,
      pkgBoth.files = l1 ++ d :: l2 ∧
      strEndsWith d.file ".whl" = true ∧
      envTags.matchIndex d.file = some m ∧
      (∀ d2 ∈ pkgBoth.files, strEndsWith d2.file ".whl" = true →
        ∀ i, envTags.matchIndex d2.file = some i → m ≤ i) ∧
      (∀ d2 ∈ l1, strEndsWith d2.file ".whl" = true →
        ∀ i, envTags.matchIndex d2.file = some i → m < i) ∧
      select_distribution envTags pkgBoth =
        .ok { name := pkgBoth.name, version := pkgBoth.version,
              fingerprint := d.hash, index_url := sourceUrl pkgBoth } :=
  C1_minimal_tag_index_selection envTags pkgBoth wheelPlat (by decide) (by decide) (by decide)

/-- C2: when no binary distribution matches the environment's tag table,
every binary distribution is universal (none-any), and a universal source
(.tar.gz) distribution exists, the Selector succeeds with the first source
distribution in file-list order. -/
theorem C2_universal_source_fallback (env : PythonEnvironment) (package : PoetryPackage)
    (hnm : ∀ d ∈ package.files, strEndsWith d.file ".whl" = true → env.matchIndex d.file = none)
    (huniv : ∀ d ∈ package.files, strEndsWith d.file ".whl" = true →
      strEndsWith d.file "none-any.whl" = true)
    (t0 : PoetryFile) (ht0 : t0 ∈ package.files)
    (htar : strEndsWith t0.file ".tar.gz" = true) :
    ∃ l1 t l2,
      package.files = l1 ++ t :: l2 ∧ strEndsWith t.file ".tar.gz" = true ∧
      (∀ u ∈ l1, strEndsWith u.file ".tar.gz" = false) ∧
      select_distribution env package =
        .ok { name := package.name, version := package.version,
              fingerprint := t.hash, index_url := sourceUrl package } := by
  have hps : (package.files.filter (fun d => strEndsWith d.file ".whl")).any
      (fun d => !(strEndsWith d.file "none-any.whl")) = false := by
    rw [List.any_eq_false]
    intro d hd
    have hm := List.mem_filter.mp hd
    simp [huniv d hm.1 hm.2]
  obtain ⟨l1, t, l2, hfs, htt, hcl, hfold⟩ :=
    foldFirstTar env.matchIndex package.files hnm ⟨t0, ht0, htar⟩
  have hbest : bestDistribution env.matchIndex package.files = (some t, none) := by
    rw [bestDistribution_eq, hps]
    exact hfold
  have hsel : select_distribution env package =
      .ok { name := package.name, version := package.version,
            fingerprint := t.hash, index_url := sourceUrl package } := by
    unfold select_distribution
    rw [hbest]
  exact ⟨l1, t, l2, hfs, htt, hcl, hsel⟩

/-- Witness for C2 at a concrete input: a package holding one universal wheel
(matched by no tag-table entry) and one source archive resolves to the source
archive. -/
theorem C2_universal_source_fallback_witness :
    ∃ l1 t l2,
      pkgUnivOnly.files = l1 ++ t :: l2 ∧ strEndsWith t.file ".tar.gz" = true ∧
      (∀ u ∈ l1, strEndsWith u.file ".tar.gz" = false) ∧
      select_distribution envNone pkgUnivOnly =
        .ok { name := pkgUnivOnly.name, version := pkgUnivOnly.version,
              fingerprint := t.hash, index_url := sourceUrl pkgUnivOnly } :=
  C2_universal_source_fallback envNone pkgUnivOnly (by decide) (by decide) sdist
    (by decide) (by decide)

/-- C3: when no binary distribution matches the tag table and either some
binary distribution is platform-specific or no universal source distribution
exists, the Selector fails with IncompatibleDistributionError, whose message
contains the package's name and version. -/
theorem C3_incompatible_distribution_failure (env : PythonEnvironment) (package : PoetryPackage)
    (hnm : ∀ d ∈ package.files, strEndsWith d.file ".whl" = true → env.matchIndex d.file = none)
    (hbad : (∃ d ∈ package.files, strEndsWith d.file ".whl" = true ∧
               strEndsWith d.file "none-any.whl" = false) ∨
            (∀ d ∈ package.files, strEndsWith d.file ".tar.gz" = false)) :
    select_distribution env package =
      .error (.IncompatibleDistributionError
        (incompatibleMessage package.name package.version)) ∧
    ∃ pre mid post,
      incompatibleMessage package.name package.version =
        pre ++ package.name ++ mid ++ package.version ++ post := by
  constructor
  · have hbest : bestDistribution env.matchIndex package.files = (none, none) := by
      rcases hbad with ⟨d, hd, hdw, hdn⟩ | hnt
      · have hps : (package.files.filter (fun d => strEndsWith d.file ".whl")).any
            (fun d => !(strEndsWith d.file "none-any.whl")) = true := by
          rw [List.any_eq_true]
          exact ⟨d, List.mem_filter.mpr ⟨hd, hdw⟩, by simp [hdn]⟩
        rw [bestDistribution_eq, hps]
        exact foldNone_ps env.matchIndex package.files hnm
      · rw [bestDistribution_eq]
        exact foldNone_noTar env.matchIndex _ package.files hnm hnt
    unfold select_distribution
    rw [hbest]
  · exact ⟨"Could not find a distribution for ", "==",
      " that is compatible with target environment.", rfl⟩

/-- Witness for C3 at a concrete input: a package whose only file is a
platform-specific wheel matched by no tag-table entry fails with the
IncompatibleDistributionError naming the package. -/
theorem C3_incompatible_distribution_failure_witness :
    select_distribution envNone pkgPlatOnly =
      .error (.IncompatibleDistributionError
        (incompatibleMessage pkgPlatOnly.name pkgPlatOnly.version)) ∧
    ∃ pre mid post,
      incompatibleMessage pkgPlatOnly.name pkgPlatOnly.version =
        pre ++ pkgPlatOnly.name ++ mid ++ pkgPlatOnly.version ++ post :=
  C3_incompatible_distribution_failure envNone pkgPlatOnly (by decide)
    (Or.inl ⟨wheelPlat, by decide, by decide, by decide⟩)

/-- A constraint predicate admitting every specifier, for concrete instances. -/
def admitsAll : String → String → Bool := fun _ _ => true

/-- A constraint predicate admitting no specifier, for concrete instances. -/
def admitsNone : String → String → Bool := fun _ _ => false

/-- A package whose interpreter constraint gates it on the environment. -/
def pkgConstrained : PoetryPackage :=
  { name := "oldlib", version := "1.2.3", python_versions := some ">=3.12", files := [sdist] }

/-- A freshly constructed lock state: environment supplied, nothing validated. -/
def lockNotValidated : LockState :=
  { data := { metadata := { lock_version := "2.0" }, packages := [pkgBoth] },
    python_target_env_spec := some envTags }

/-- Counterexample to C4 at a concrete input: with an environment supplied
but validate_poetry_lock never run (poetry_lock_is_validated still false),
get_valid_packages_from_lock succeeds and returns the package list instead
of failing with a precondition-violation error. -/
theorem C4_filter_without_validation_counterexample :
    lockNotValidated.poetry_lock_is_validated = false ∧
    (get_valid_packages_from_lock admitsAll lockNotValidated).2 = .ok [pkgBoth] :=
  ⟨rfl, rfl⟩

/-- C4 as amended: the Filter never consults the recorded validated state;
its only precondition is a supplied environment.  With an environment
present it returns a package list even when validation has not run, and
without one it fails with MissingPythonEnvironmentError. -/
theorem C4_amended_filter_needs_only_environment (admits : String → String → Bool)
    (s : LockState) (env : PythonEnvironment)
    (henv : s.python_target_env_spec = some env)
    (hnv : s.poetry_lock_is_validated = false) :
    (∃ l, (get_valid_packages_from_lock admits s).2 = .ok l) ∧
    ∀ s2 : LockState, s2.python_target_env_spec = none →
      (get_valid_packages_from_lock admits s2).2 = .error .MissingPythonEnvironmentError := by
  constructor
  · unfold get_valid_packages_from_lock
    rw [henv]
    exact ⟨_, rfl⟩
  · intro s2 h2
    unfold get_valid_packages_from_lock
    rw [h2]

/-- Witness for the amended C4 at the concrete not-yet-validated state. -/
theorem C4_amended_filter_needs_only_environment_witness :
    (∃ l, (get_valid_packages_from_lock admitsAll lockNotValidated).2 = .ok l) ∧
    ∀ s2 : LockState, s2.python_target_env_spec = none →
      (get_valid_packages_from_lock admitsAll s2).2 = .error .MissingPythonEnvironmentError :=
  C4_amended_filter_needs_only_environment admitsAll lockNotValidated envTags rfl rfl

/-- A lock state whose schema version string is the bare "2". -/
def lockVersionBare : LockState :=
  { data := { metadata := { lock_version := "2" }, packages := [] },
    python_target_env_spec := some envTags }

/-- Counterexample to C6 at a concrete input: the schema version string "2"
has major component 2, which is in the supported set, yet the Validator
rejects it, because line 172 tests the string prefix "2." rather than the
parsed major component. -/
theorem C6_schema_check_counterexample :
    majorComponent lockVersionBare.data.metadata.lock_version = some 2 ∧
    (validate_poetry_lock admitsAll lockVersionBare).2 = .error .InvalidLockVersionError :=
  ⟨rfl, rfl⟩

/-- C6 as amended: with an environment supplied, the Validator fails with
InvalidLockVersionError exactly when the schema version string does not
start with "2." (a string prefix test: the bare "2" is rejected although its
major component is the supported 2), and the outcome of validation never
depends on the package list, so the failure occurs before any package is
examined. -/
theorem C6_amended_schema_version_check (admits : String → String → Bool)
    (s : LockState) (env : PythonEnvironment)
    (henv : s.python_target_env_spec = some env) :
    ((validate_poetry_lock admits s).2 = .error .InvalidLockVersionError ↔
      strStartsWith s.data.metadata.lock_version "2." = false) ∧
    ∀ ps2 : List PoetryPackage,
      (validate_poetry_lock admits
        { s with data := { metadata := s.data.metadata, packages := ps2 } }).2 =
      (validate_poetry_lock admits s).2 := by
  constructor
  · unfold validate_poetry_lock
    rw [henv]
    dsimp only
    by_cases hsw : strStartsWith s.data.metadata.lock_version "2." = false
    · rw [if_pos hsw]
      simp [hsw]
    · rw [if_neg hsw]
      constructor
      · intro h
        by_cases hv : lock_python_valid admits env.python_version s.data.metadata = false
        · rw [if_pos hv] at h
          simp at h
        · rw [if_neg hv] at h
          simp at h
      · intro h
        exact absurd h hsw
  · intro ps2
    unfold validate_poetry_lock
    rw [henv]
    dsimp only
    by_cases h1 : strStartsWith s.data.metadata.lock_version "2." = false
    · rw [if_pos h1, if_pos h1]
    · rw [if_neg h1, if_neg h1]
      by_cases h2 : lock_python_valid admits env.python_version s.data.metadata = false
      · rw [if_pos h2, if_pos h2]
      · rw [if_neg h2, if_neg h2]

/-- Witness for the amended C6 at a concrete input with schema "2.0". -/
theorem C6_amended_schema_version_check_witness :
    ((validate_poetry_lock admitsAll lockNotValidated).2 = .error .InvalidLockVersionError ↔
      strStartsWith lockNotValidated.data.metadata.lock_version "2." = false) ∧
    ∀ ps2 : List PoetryPackage,
      (validate_poetry_lock admitsAll
        { lockNotValidated with
          data := { metadata := lockNotValidated.data.metadata, packages := ps2 } }).2 =
      (validate_poetry_lock admitsAll lockNotValidated).2 :=
  C6_amended_schema_version_check admitsAll lockNotValidated envTags rfl

/-- The append loop of get_valid_packages_from_lock is the filter of the
package list by the per-package interpreter check. -/
theorem filter_loop_eq {α : Type} (p : α → Bool) :
    ∀ (l acc : List α),
      l.foldl (fun acc x => if p x then acc ++ [x] else acc) acc = acc ++ l.filter p := by
  intro l
  induction l with
  | nil => intro acc; simp
  | cons x l ih =>
    intro acc
    rw [List.foldl_cons]
    by_cases hp : p x = true
    · rw [if_pos hp, ih, List.filter_cons_of_pos hp]
      simp
    · rw [if_neg hp, ih, List.filter_cons_of_neg (by simpa using hp)]

/-- C7: with an environment supplied, the Filter returns (without error)
exactly the packages whose own interpreter constraint is absent or admits
the environment version, as a sublist of the original package list (the
original ordering preserved). -/
theorem C7_filter_returns_admitted_packages (admits : String → String → Bool)
    (s : LockState) (env : PythonEnvironment)
    (henv : s.python_target_env_spec = some env) :
    (get_valid_packages_from_lock admits s).2 =
      .ok (s.data.packages.filter (package_python_valid admits env.python_version)) ∧
    (s.data.packages.filter (package_python_valid admits env.python_version)).Sublist
      s.data.packages ∧
    (∀ package ∈ s.data.packages.filter (package_python_valid admits env.python_version),
      package_python_valid admits env.python_version package = true) ∧
    (∀ package ∈ s.data.packages,
      package_python_valid admits env.python_version package = true →
      package ∈ s.data.packages.filter (package_python_valid admits env.python_version)) := by
  refine ⟨?_, List.filter_sublist _, ?_, ?_⟩
  · unfold get_valid_packages_from_lock
    rw [henv]
    simp [filter_loop_eq]
  · intro package hp
    exact (List.mem_filter.mp hp).2
  · intro package hp hval
    exact List.mem_filter.mpr ⟨hp, hval⟩

/-- A lock holding an unconstrained package and a constrained one. -/
def lockMixedPackages : LockState :=
  { data := { metadata := { lock_version := "2.0" },
              packages := [pkgBoth, pkgConstrained] },
    python_target_env_spec := some envTags }

/-- Witness for C7 at a concrete input where the admits predicate rejects
every constraint: the unconstrained package stays, the constrained one is
excluded, and no error is raised. -/
theorem C7_filter_returns_admitted_packages_witness :
    (get_valid_packages_from_lock admitsNone lockMixedPackages).2 =
      .ok (lockMixedPackages.data.packages.filter
        (package_python_valid admitsNone envTags.python_version)) ∧
    (lockMixedPackages.data.packages.filter
      (package_python_valid admitsNone envTags.python_version)).Sublist
      lockMixedPackages.data.packages ∧
    (∀ package ∈ lockMixedPackages.data.packages.filter
        (package_python_valid admitsNone envTags.python_version),
      package_python_valid admitsNone envTags.python_version package = true) ∧
    (∀ package ∈ lockMixedPackages.data.packages,
      package_python_valid admitsNone envTags.python_version package = true →
      package ∈ lockMixedPackages.data.packages.filter
        (package_python_valid admitsNone envTags.python_version)) :=
  C7_filter_returns_admitted_packages admitsNone lockMixedPackages envTags rfl

/-- C8: with an environment supplied and a supported schema version, the
Validator fails with the IncompatibleLock error (InvalidLockFileError)
exactly when the lock metadata carries a present (non-empty, matching
Python truthiness) interpreter constraint that the admits predicate
rejects; an absent constraint means the lock is compatible with any
interpreter and validation succeeds. -/
theorem C8_lock_interpreter_constraint (admits : String → String → Bool)
    (s : LockState) (env : PythonEnvironment)
    (henv : s.python_target_env_spec = some env)
    (hschema : strStartsWith s.data.metadata.lock_version "2." = true) :
    ((validate_poetry_lock admits s).2 =
        .error (.InvalidLockFileError
          "Poetry lock file not compatible with target Python version") ↔
      ∃ spec, s.data.metadata.python_versions = some spec ∧ spec ≠ "" ∧
        admits spec env.python_version = false) ∧
    ((s.data.metadata.python_versions = none ∨
        s.data.metadata.python_versions = some "") →
      (validate_poetry_lock admits s).2 = .ok ()) := by
  unfold validate_poetry_lock
  rw [henv]
  dsimp only
  rw [if_neg (by simp [hschema])]
  constructor
  · by_cases hv : lock_python_valid admits env.python_version s.data.metadata = false
    · rw [if_pos hv]
      constructor
      · intro _
        unfold lock_python_valid at hv
        cases hm : s.data.metadata.python_versions with
        | none => rw [hm] at hv; simp at hv
        | some spec =>
          rw [hm] at hv
          dsimp only at hv
          by_cases hs : spec = ""
          · rw [if_pos hs] at hv; simp at hv
          · rw [if_neg hs] at hv
            exact ⟨spec, rfl, hs, by simpa using hv⟩
      · intro _; rfl
    · rw [if_neg hv]
      constructor
      · intro h; simp at h
      · rintro ⟨spec, hm, hs, ha⟩
        exfalso
        apply hv
        unfold lock_python_valid
        rw [hm]
        dsimp only
        rw [if_neg hs]
        exact ha
  · intro habs
    have hv : lock_python_valid admits env.python_version s.data.metadata = true := by
      unfold lock_python_valid
      rcases habs with hm | hm
      · rw [hm]
      · rw [hm]; simp
    rw [if_neg (by simp [hv])]

/-- A lock whose metadata carries an interpreter constraint. -/
def lockWithConstraint : LockState :=
  { data := { metadata := { lock_version := "2.0", python_versions := some ">=3.8" },
              packages := [pkgBoth] },
    python_target_env_spec := some envTags }

/-- Witness for C8 at a concrete input: admits accepts the constraint, so
validation does not raise the IncompatibleLock error. -/
theorem C8_lock_interpreter_constraint_witness :
    ((validate_poetry_lock admitsAll lockWithConstraint).2 =
        .error (.InvalidLockFileError
          "Poetry lock file not compatible with target Python version") ↔
      ∃ spec, lockWithConstraint.data.metadata.python_versions = some spec ∧ spec ≠ "" ∧
        admitsAll spec envTags.python_version = false) ∧
    ((lockWithConstraint.data.metadata.python_versions = none ∨
        lockWithConstraint.data.metadata.python_versions = some "") →
      (validate_poetry_lock admitsAll lockWithConstraint).2 = .ok ()) :=
  C8_lock_interpreter_constraint admitsAll lockWithConstraint envTags rfl (by decide)

/-- C10: a filter output recorded as the empty list makes the Selector raise
MissingLockMetadataError, the same precondition-violation error raised when
filtering never ran (valid_package_list still None), instead of returning an
empty requirement list. -/
theorem C10_selector_rejects_empty_filter_output (s : LockState)
    (h : s.valid_package_list = some []) :
    (get_preferred_distributions s).2 = .error .MissingLockMetadataError ∧
    (get_preferred_distributions { s with valid_package_list := none }).2 =
      .error .MissingLockMetadataError := by
  constructor
  · unfold get_preferred_distributions
    rw [h]
  · rfl

/-- A validated lock state whose filter stage excluded every package. -/
def lockEmptyFilter : LockState :=
  { data := { metadata := { lock_version := "2.0" }, packages := [] },
    python_target_env_spec := some envTags,
    poetry_lock_is_validated := true,
    valid_package_list := some [] }

/-- Witness for C10 at the concrete empty-filter-output state. -/
theorem C10_selector_rejects_empty_filter_output_witness :
    (get_preferred_distributions lockEmptyFilter).2 = .error .MissingLockMetadataError ∧
    (get_preferred_distributions { lockEmptyFilter with valid_package_list := none }).2 =
      .error .MissingLockMetadataError :=
  C10_selector_rejects_empty_filter_output lockEmptyFilter rfl

/-- The package loop resolves a prefix of successful packages, then stops at
the first failing package with its error, never reaching the packages after
it: the recorded requirements are exactly those of the successful prefix. -/
theorem requirementsLoop_append (env : PythonEnvironment) :
    ∀ (l1 : List PoetryPackage) (rs : List PythonRequirement),
      List.Forall₂ (fun p r => select_distribution env p = .ok r) l1 rs →
      ∀ (bad : PoetryPackage) (l2 : List PoetryPackage) (e : DeplockError)
        (acc : List PythonRequirement),
        select_distribution env bad = .error e →
        requirementsLoop env (l1 ++ bad :: l2) acc = (acc ++ rs, some e) := by
  intro l1 rs hf
  induction hf with
  | nil =>
    intro bad l2 e acc hbad
    rw [List.nil_append]
    unfold requirementsLoop
    rw [hbad]
    simp
  | @cons p r l1t rst hpr hrest ih =>
    intro bad l2 e acc hbad
    rw [List.cons_append]
    unfold requirementsLoop
    rw [hpr]
    dsimp only
    rw [ih bad l2 e (acc ++ [r]) hbad]
    simp

/-- A package with an empty file list, unresolvable in any environment. -/
def pkgEmptyFiles : PoetryPackage := { name := "broken", version := "0.0.1", files := [] }

/-- A validated lock state whose filter output puts the unresolvable package
first and a resolvable one second. -/
def lockFailFast : LockState :=
  { data := { metadata := { lock_version := "2.0" },
              packages := [pkgEmptyFiles, pkgUnivOnly] },
    python_target_env_spec := some envNone,
    poetry_lock_is_validated := true,
    valid_package_list := some [pkgEmptyFiles, pkgUnivOnly] }

/-- Counterexample to C5 at a concrete input: the second package is
individually resolvable (it resolves to its source distribution), yet after
the first package fails the call stops at once: the overall call fails and
no requirement is recorded for the second package, so the remaining
packages were not processed. -/
theorem C5_selector_fail_fast_counterexample :
    select_distribution envNone pkgUnivOnly =
      .ok { name := "pkg", version := "1.0", fingerprint := "sha256:ccc", index_url := none } ∧
    (get_preferred_distributions lockFailFast).2 =
      .error (.IncompatibleDistributionError (incompatibleMessage "broken" "0.0.1")) ∧
    (get_preferred_distributions lockFailFast).1.package_requirements = some [] :=
  ⟨rfl, rfl, rfl⟩

/-- C5 as amended: the Selector fails fast.  When the filter output splits
as a prefix of resolvable packages followed by a first unresolvable one,
the call raises that first package's IncompatibleDistributionError
immediately; the recorded requirements are exactly those of the prefix, and
the packages after the failing one are never processed. -/
theorem C5_amended_selector_fails_fast (env : PythonEnvironment) (s : LockState)
    (l1 : List PoetryPackage) (bad : PoetryPackage) (l2 : List PoetryPackage)
    (rs : List PythonRequirement) (e : DeplockError)
    (henv : s.python_target_env_spec = some env)
    (hv : s.valid_package_list = some (l1 ++ bad :: l2))
    (hok : List.Forall₂ (fun p r => select_distribution env p = .ok r) l1 rs)
    (hbad : select_distribution env bad = .error e) :
    (get_preferred_distributions s).2 = .error e ∧
    (get_preferred_distributions s).1.package_requirements = some rs := by
  have hloop := requirementsLoop_append env l1 rs hok bad l2 e [] hbad
  cases hl : l1 ++ bad :: l2 with
  | nil => exact absurd hl (by simp)
  | cons hd tl =>
    rw [hl] at hloop
    unfold get_preferred_distributions
    rw [hv, hl]
    dsimp only
    rw [henv]
    dsimp only
    rw [hloop]
    simp

/-- Witness for the amended C5 at a concrete input: one resolvable package
followed by the unresolvable one; the call fails with the second package's
error and records only the first package's requirement. -/
theorem C5_amended_selector_fails_fast_witness :
    (get_preferred_distributions
      { data := { metadata := { lock_version := "2.0" },
                  packages := [pkgUnivOnly, pkgEmptyFiles] },
        python_target_env_spec := some envNone,
        poetry_lock_is_validated := true,
        valid_package_list := some [pkgUnivOnly, pkgEmptyFiles] }).2 =
      .error (.IncompatibleDistributionError (incompatibleMessage "broken" "0.0.1")) ∧
    (get_preferred_distributions
      { data := { metadata := { lock_version := "2.0" },
                  packages := [pkgUnivOnly, pkgEmptyFiles] },
        python_target_env_spec := some envNone,
        poetry_lock_is_validated := true,
        valid_package_list := some [pkgUnivOnly, pkgEmptyFiles] }).1.package_requirements =
      some [{ name := "pkg", version := "1.0", fingerprint := "sha256:ccc",
              index_url := none }] :=
  C5_amended_selector_fails_fast envNone _ [pkgUnivOnly] pkgEmptyFiles []
    [{ name := "pkg", version := "1.0", fingerprint := "sha256:ccc", index_url := none }]
    (.IncompatibleDistributionError (incompatibleMessage "broken" "0.0.1"))
    rfl rfl (List.Forall₂.cons rfl List.Forall₂.nil) rfl

/-- A validation that returned Ok had an environment supplied. -/
theorem validate_ok_env (admits : String → String → Bool) (s : LockState)
    (h : (validate_poetry_lock admits s).2 = .ok ()) :
    ∃ env, s.python_target_env_spec = some env := by
  cases henv : s.python_target_env_spec with
  | some env => exact ⟨env, rfl⟩
  | none =>
    unfold validate_poetry_lock at h
    rw [henv] at h
    simp at h

/-- A validation that returned Ok only set the validated flag. -/
theorem validate_ok_shape (admits : String → String → Bool) (s : LockState)
    (h : (validate_poetry_lock admits s).2 = .ok ()) :
    validate_poetry_lock admits s = ({ s with poetry_lock_is_validated := true }, .ok ()) := by
  unfold validate_poetry_lock at h ⊢
  cases henv : s.python_target_env_spec with
  | none =>
    rw [henv] at h
    simp at h
  | some env =>
    rw [henv] at h
    dsimp only at h ⊢
    by_cases h1 : strStartsWith s.data.metadata.lock_version "2." = false
    · rw [if_pos h1] at h; simp at h
    · rw [if_neg h1] at h
      rw [if_neg h1]
      by_cases h2 : lock_python_valid admits env.python_version s.data.metadata = false
      · rw [if_pos h2] at h; simp at h
      · rw [if_neg h2]

/-- The Validator's verdict depends only on the environment and the lock
metadata. -/
theorem validate_poetry_lock_result_eq (admits : String → String → Bool) (s t : LockState)
    (he : s.python_target_env_spec = t.python_target_env_spec)
    (hm : s.data.metadata = t.data.metadata) :
    (validate_poetry_lock admits s).2 = (validate_poetry_lock admits t).2 := by
  unfold validate_poetry_lock
  rw [he, hm]
  cases henv : t.python_target_env_spec with
  | none => rfl
  | some env =>
    dsimp only
    by_cases h1 : strStartsWith t.data.metadata.lock_version "2." = false
    · rw [if_pos h1, if_pos h1]
    · rw [if_neg h1, if_neg h1]
      by_cases h2 : lock_python_valid admits env.python_version t.data.metadata = false
      · rw [if_pos h2, if_pos h2]
      · rw [if_neg h2, if_neg h2]

/-- With an environment supplied, the Filter returns Ok and records its
output in valid_package_list. -/
theorem get_valid_ok_shape (admits : String → String → Bool) (s : LockState)
    (env : PythonEnvironment) (henv : s.python_target_env_spec = some env) :
    ∃ l, get_valid_packages_from_lock admits s =
      ({ s with valid_package_list := some l }, .ok l) := by
  unfold get_valid_packages_from_lock
  rw [henv]
  exact ⟨_, rfl⟩

/-- The Filter's verdict depends only on the environment and the lock data. -/
theorem get_valid_packages_result_eq (admits : String → String → Bool) (s t : LockState)
    (he : s.python_target_env_spec = t.python_target_env_spec)
    (hd : s.data = t.data) :
    (get_valid_packages_from_lock admits s).2 = (get_valid_packages_from_lock admits t).2 := by
  unfold get_valid_packages_from_lock
  rw [he, hd]
  cases henv : t.python_target_env_spec with
  | none => rfl
  | some env => rfl

/-- The Selector writes only package_requirements: the environment, lock
data and filter output fields survive it unchanged. -/
theorem get_preferred_state_fields (s : LockState) :
    (get_preferred_distributions s).1.python_target_env_spec = s.python_target_env_spec ∧
    (get_preferred_distributions s).1.data = s.data ∧
    (get_preferred_distributions s).1.valid_package_list = s.valid_package_list := by
  unfold get_preferred_distributions
  split
  · exact ⟨rfl, rfl, rfl⟩
  · exact ⟨rfl, rfl, rfl⟩
  · split
    · exact ⟨rfl, rfl, rfl⟩
    · split
      · exact ⟨rfl, rfl, rfl⟩
      · exact ⟨rfl, rfl, rfl⟩

/-- The Selector's verdict depends only on the environment and the recorded
filter output. -/
theorem get_preferred_result_eq (s t : LockState)
    (he : s.python_target_env_spec = t.python_target_env_spec)
    (hv : s.valid_package_list = t.valid_package_list) :
    (get_preferred_distributions s).2 = (get_preferred_distributions t).2 := by
  unfold get_preferred_distributions
  rw [he, hv]
  cases hvl : t.valid_package_list with
  | none => rfl
  | some packages =>
    cases packages with
    | nil => rfl
    | cons hd tl =>
      dsimp only
      cases henv : t.python_target_env_spec with
      | none => rfl
      | some env =>
        dsimp only
        cases hr : requirementsLoop env (hd :: tl) [] with
        | mk reqs err =>
          cases err with
          | none => rfl
          | some e => rfl

/-- C9: running the Validator, Filter, Selector pipeline a second time on
the state the first successful run left behind reproduces the first run's
list of resolved requirements. -/
theorem C9_pipeline_idempotent (admits : String → String → Bool) (s : LockState)
    (rs : List PythonRequirement)
    (h : (runPipeline admits s).2 = .ok rs) :
    (runPipeline admits ((runPipeline admits s).1)).2 = .ok rs := by
  obtain ⟨⟨s1, r1⟩, hval⟩ : ∃ p, validate_poetry_lock admits s = p := ⟨_, rfl⟩
  cases r1 with
  | error e =>
    exfalso
    unfold runPipeline at h
    rw [hval] at h
    simp at h
  | ok u =>
    cases u
    have hvalsnd : (validate_poetry_lock admits s).2 = .ok () := by rw [hval]
    obtain ⟨env, henv⟩ := validate_ok_env admits s hvalsnd
    have hshape := validate_ok_shape admits s hvalsnd
    rw [hval] at hshape
    injection hshape with hs1 hdrop
    have henv1 : s1.python_target_env_spec = some env := by rw [hs1]; exact henv
    obtain ⟨l, hfil⟩ := get_valid_ok_shape admits s1 env henv1
    have hrun : runPipeline admits s =
        get_preferred_distributions { s1 with valid_package_list := some l } := by
      unfold runPipeline
      rw [hval]
      dsimp only
      rw [hfil]
    rw [hrun] at h ⊢
    have hf := get_preferred_state_fields { s1 with valid_package_list := some l }
    have henv3 : (get_preferred_distributions
        { s1 with valid_package_list := some l }).1.python_target_env_spec = some env := by
      rw [hf.1]
      exact henv1
    have hdata3 : (get_preferred_distributions
        { s1 with valid_package_list := some l }).1.data = s.data := by
      rw [hf.2.1, hs1]
    have hvl3 : (get_preferred_distributions
        { s1 with valid_package_list := some l }).1.valid_package_list = some l := hf.2.2
    generalize hgen : (get_preferred_distributions
      { s1 with valid_package_list := some l }).1 = s3 at henv3 hdata3 hvl3 ⊢
    have hval3snd : (validate_poetry_lock admits s3).2 = .ok () := by
      rw [validate_poetry_lock_result_eq admits s3 s (by rw [henv3, henv]) (by rw [hdata3])]
      exact hvalsnd
    have hshape3 := validate_ok_shape admits s3 hval3snd
    have henv3v : ({ s3 with poetry_lock_is_validated := true } :
        LockState).python_target_env_spec = some env := henv3
    obtain ⟨l2, hfil3⟩ :=
      get_valid_ok_shape admits { s3 with poetry_lock_is_validated := true } env henv3v
    have hl2 : l2 = l := by
      have hd2 := get_valid_packages_result_eq admits
        { s3 with poetry_lock_is_validated := true } s1
        (by
          have he0 : s3.python_target_env_spec = s1.python_target_env_spec := by
            rw [henv3, henv1]
          exact he0)
        (by
          have hd0 : s3.data = s1.data := by
            rw [hdata3, hs1]
          exact hd0)
      rw [hfil3, hfil] at hd2
      simpa using hd2
    rw [hl2] at hfil3
    have hrun2 : runPipeline admits s3 =
        get_preferred_distributions
          { { s3 with poetry_lock_is_validated := true } with
            valid_package_list := some l } := by
      unfold runPipeline
      rw [hshape3]
      dsimp only
      rw [hfil3]
    rw [hrun2]
    have hsame := get_preferred_result_eq
      { { s3 with poetry_lock_is_validated := true } with valid_package_list := some l }
      { s1 with valid_package_list := some l }
      (by
        have he0 : s3.python_target_env_spec = s1.python_target_env_spec := by
          rw [henv3, henv1]
        exact he0)
      rfl
    rw [hsame]
    exact h

/-- A lock state ready for a full pipeline run. -/
def lockPipeline : LockState :=
  { data := { metadata := { lock_version := "2.0" }, packages := [pkgUnivOnly] },
    python_target_env_spec := some envTags }

/-- Witness for C9 at a concrete input: the second pipeline run reproduces
the first run's single resolved requirement. -/
theorem C9_pipeline_idempotent_witness :
    (runPipeline admitsAll ((runPipeline admitsAll lockPipeline).1)).2 =
      .ok [{ name := "pkg", version := "1.0", fingerprint := "sha256:bbb",
             index_url := none }] :=
  C9_pipeline_idempotent admitsAll lockPipeline
    [{ name := "pkg", version := "1.0", fingerprint := "sha256:bbb", index_url := none }]
    rfl

end Deplock
